import Mathlib

/-!
Shallow embedding of the Sleeper_FF analyzer core:
`ff_league_analyzer/ff_league.py` (the `SleeperLeague` gateway) and
`ff_league_analyzer/ff_league_analyzer.py` (the `SleeperLeagueAnalyzer`
table builders), together with theorems settling the specification claims.

Python lists become `List`, dicts become association lists, JSON numbers
used only in comparisons/sums become `ℚ`, missing JSON keys become
`Option`, and code that raises (pandas `astype` on a missing column,
`assign` with a length mismatch) returns `none`.
-/

namespace SleeperFF

/-! ### Python list primitives used by `_pull_league_data` -/

/-- Python `list.insert(i, x)`: insert at index `i`, clamping to the end. -/
def pyInsert : List String → Nat → String → List String
  | l, 0, x => x :: l
  | [], _ + 1, x => [x]
  | h :: t, n + 1, x => h :: pyInsert t n x

/-- Python `list.index(x)`: index of the first occurrence of `x`
(only meaningful when `x` is a member, as at its call sites). -/
def pyIndex (x : String) : List String → Nat
  | [] => 0
  | h :: t => if h = x then 0 else pyIndex x t + 1

/-- Python `list.remove(x)`: drop the first occurrence of `x`. -/
def pyRemove (x : String) : List String → List String
  | [] => []
  | h :: t => if h = x then t else h :: pyRemove x t

/-! ### `_pull_league_data` (ff_league.py lines 104-116) -/

/-- Starting positions: the configured roster positions with the bench
slot `"BN"` removed (line 110). -/
def startingPositions (roster_positions : List String) : List String :=
  roster_positions.filter (fun pos => pos ≠ "BN")

/-- Lines 112-116: starting from `list(set(starting_positions))` — whose
element order Python leaves unspecified, so the deduplicated list is taken
as a parameter here — insert `"DL/LB"` at the index of `"LB"` when `"DL"`
and `"LB"` are present, insert `"LB/DB"` at the index of `"LB"` when
`"LB"` and `"CB"` are present, then remove `"FLEX"` when present. -/
def insertDLLB (roster : List String) : List String :=
  if "DL" ∈ roster ∧ "LB" ∈ roster then pyInsert roster (pyIndex "LB" roster) "DL/LB" else roster

def insertLBDB (roster : List String) : List String :=
  if "LB" ∈ roster ∧ "CB" ∈ roster then pyInsert roster (pyIndex "LB" roster) "LB/DB" else roster

def removeFlex (roster : List String) : List String :=
  if "FLEX" ∈ roster then pyRemove "FLEX" roster else roster

def orderedRosterPositions (dedup : List String) : List String :=
  removeFlex (insertLBDB (insertDLLB dedup))

/-! ### Matchup fetching (ff_league.py lines 139-159) -/

/-- `_pull_matchups_nonasync` (line 159): one fetch per week in
`range(1, current_week + 1)`, assembled into a week-keyed dict in week
order; `fetch` is the (deterministic) per-week upstream call. -/
def pullMatchupsNonasync {α : Type} (current_week : Nat) (fetch : Nat → α) : List (Nat × α) :=
  (List.range' 1 current_week).map (fun w => (w, fetch w))

/-- The executor's completion log for `__pull_matchups_async`: the week
fetches finish in the order given by `order`, each producing the payload
of its own week. -/
def completionLog {α : Type} (fetch : Nat → α) (order : List Nat) : List (Nat × α) :=
  order.map (fun w => (w, fetch w))

/-- `__pull_matchups_async` (lines 142-147): `asyncio.gather` awaits each
week's future in submission order — modelled by reading each submitted
week's result from the completion log — and `dict(zip(weeks, matchups))`
re-keys the results by week. `none` models a week whose future never
completed (impossible when every submitted week completes). -/
def pullMatchupsAsync {α : Type} (current_week : Nat) (fetch : Nat → α) (order : List Nat) :
    Option (List (Nat × α)) :=
  let weeks := List.range' 1 current_week
  (weeks.mapM (fun w => (completionLog fetch order).lookup w)).map weeks.zip

/-! ### `_get_players` daily cache (ff_league.py lines 68-88) -/

/-- State touched by `_get_players`: the in-memory catalog `self.players`
(a dict, empty at construction), the contents of today's
`sleeper_players_<date>.pickle` file when present (older files are
deleted by `_clear_old_player_files` before the check), and a counter of
`_pull_players` upstream API calls. -/
structure PlayersCache where
  players : List (String × String)
  todayFile : Option (List (String × String))
  pulls : Nat
deriving DecidableEq

/-- `_get_players`, with `upstream` the catalog a `_pull_players` call
would fetch: when the in-memory catalog is empty, read today's file if it
exists, otherwise pull from the API and persist the result; return the
new state together with the returned catalog. -/
def getPlayersCached (upstream : List (String × String)) (s : PlayersCache) :
    PlayersCache × List (String × String) :=
  if s.players = [] then
    match s.todayFile with
    | some d => ({ s with players := d }, d)
    | none => ({ players := upstream, todayFile := some upstream, pulls := s.pulls + 1 }, upstream)
  else (s, s.players)

/-! ### `get_data` (ff_league.py lines 35-54) -/

/-- The cached entities of a `SleeperLeague` session. Each payload is
abstracted as a JSON object (association list); `league_info` is set in
`__post_init__` and the rest start empty. -/
structure LeagueState where
  league_info : List (String × String)
  cache : PlayersCache
  rosters : List (String × String)
  users : List (String × String)
  matchups : List (String × String)
deriving DecidableEq

/-- The upstream results the `_pull_*` helpers would assign. -/
structure GatewayEnv where
  pulledRosters : List (String × String)
  pulledUsers : List (String × String)
  pulledMatchups : List (String × String)
  upstreamPlayers : List (String × String)

/-- `get_data`: dispatch on the entity name; each cached entity is pulled
lazily when empty; any unrecognized name returns `{}`. -/
def getData (env : GatewayEnv) (data : String) (s : LeagueState) :
    LeagueState × List (String × String) :=
  if data = "league" then (s, s.league_info)
  else if data = "players" then
    let r := getPlayersCached env.upstreamPlayers s.cache
    ({ s with cache := r.1 }, r.2)
  else if data = "rosters" then
    let s' := if s.rosters = [] then { s with rosters := env.pulledRosters } else s
    (s', s'.rosters)
  else if data = "users" then
    let s' := if s.users = [] then { s with users := env.pulledUsers } else s
    (s', s'.users)
  else if data = "matchups" then
    let s' := if s.matchups = [] then { s with matchups := env.pulledMatchups } else s
    (s', s'.matchups)
  else (s, [])

/-! ### String primitives shared by the table builders -/

/-- Code-point comparison of strings as Python compares them (used by
`sorted`). -/
def charListLE : List Char → List Char → Bool
  | [], _ => true
  | _ :: _, [] => false
  | a :: s, b :: t =>
    if a.toNat < b.toNat then true
    else if b.toNat < a.toNat then false
    else charListLE s t

/-- Python `sorted` on strings. -/
def pySortStrings (l : List String) : List String :=
  List.insertionSort (fun a b => charListLE a.data b.data = true) l

/-- Python `'sep'.join(xs)`. -/
def pyJoin (sep : String) : List String → String
  | [] => ""
  | [x] => x
  | x :: xs => x ++ sep ++ pyJoin sep xs

/-- Remove every occurrence of `pat` from a character list, scanning left
to right (`fuel` bounds the recursion; it is instantiated with the input
length, which suffices since every step consumes at least one character). -/
def removeAllAux (pat : List Char) : Nat → List Char → List Char
  | 0, s => s
  | _ + 1, [] => []
  | fuel + 1, c :: rest =>
    if pat ≠ [] ∧ pat.isPrefixOf (c :: rest) then removeAllAux pat fuel ((c :: rest).drop pat.length)
    else c :: removeAllAux pat fuel rest

/-- Pandas `.str.replace(pat, '')`: drop every occurrence of `pat`. -/
def pyReplaceDrop (pat : String) (s : String) : String :=
  ⟨removeAllAux pat.data s.data.length s.data⟩

/-- Python `str.upper()` (ASCII, as in the slot names it is applied to). -/
def pyUpper (s : String) : String := ⟨s.data.map Char.toUpper⟩

/-! ### `build_players_df` (ff_league_analyzer.py lines 156-210) -/

/-- A player-catalog entry, keeping the fields `build_players_df` reads:
the id keying the catalog, the optional `active` flag, and the optional
position-eligibility list (`None` in the raw payload becomes `none`). -/
structure CatalogEntry where
  player_id : String
  active : Option Bool
  fantasy_positions : Option (List String)
deriving DecidableEq

/-- `_drop_unused_positions` (lines 172-180): drop positions whose code
starts with `'O'` (Python indexes `pos[0]`, so codes are assumed
non-empty; an empty code is kept here), remove the first occurrence of
each of `LEO`, `LS`, `P`, and sort. -/
def dropUnusedPositions (positions : List String) : List String :=
  let ps := positions.filter (fun pos => pos.data.head? ≠ some 'O')
  let ps := if "LEO" ∈ ps then ps.erase "LEO" else ps
  let ps := if "LS" ∈ ps then ps.erase "LS" else ps
  let ps := if "P" ∈ ps then ps.erase "P" else ps
  pySortStrings ps

/-- The `fantasy_pos` column (line 200-201): a missing eligibility list
becomes `[]`, then `_drop_unused_positions` and `'/'.join`. -/
def fantasyPos (fantasy_positions : Option (List String)) : String :=
  pyJoin "/" (dropUnusedPositions (fantasy_positions.getD []))

/-- `build_players_df` (lines 182-206), restricted to the columns the
claims mention: the dict comprehension keeps entries whose `active` value
is truthy, `fantasy_pos` is derived per entry, and the final `query`
keeps rows with a non-empty `fantasy_pos` (its `active` conjunct is
always true after the comprehension filter). Rows are `(sleeper_id,
fantasy_pos)`. -/
def buildPlayersDf (catalog : List CatalogEntry) : List (String × String) :=
  ((catalog.filter (fun p => p.active.getD false)).map
    (fun p => (p.player_id, fantasyPos p.fantasy_positions))).filter (fun row => row.2 ≠ "")

/-- Modelled from the spec's wording, for comparison with the code path:
derive `fantasy_pos` by dropping every position code starting with "O"
and every occurrence of the codes LEO, LS and P, sorting alphabetically,
and joining with "/". -/
def specFantasyPos (positions : List String) : String :=
  pyJoin "/" (pySortStrings (positions.filter
    (fun pos => pos.data.head? ≠ some 'O' ∧ pos ≠ "LEO" ∧ pos ≠ "LS" ∧ pos ≠ "P")))

/-! ### `build_teams_df` points (ff_league.py lines 123-134, ff_league_analyzer.py lines 234-259) -/

/-- One step of the `_pull_rosters` settings normalization: fill a
missing field with 0 (Python dict insertion appends new keys at the end). -/
def fillDefault (acc : List (String × Int)) (k : String) : List (String × Int) :=
  if (acc.lookup k).isSome then acc else acc ++ [(k, 0)]

/-- The five settings fields defaulted by `_pull_rosters`, in program order. -/
def defaultedSettings : List String :=
  ["fpts_decimal", "fpts_against", "fpts_against_decimal", "ppts", "ppts_decimal"]

/-- `_pull_rosters` lines 130-132: settings fields absent in the
preseason are filled with 0. -/
def normalizeSettings (settings : List (String × Int)) : List (String × Int) :=
  defaultedSettings.foldl fillDefault settings

/-- `build_teams_df` lines 241-246: cast the six scoring settings to
integers (`none` when a column is missing, where the `astype` cast would
raise) and reconstruct `points_for`, `points_against`,
`possible_points` as `whole + decimal/100`. -/
def buildTeamPoints (settings : List (String × Int)) : Option (ℚ × ℚ × ℚ) :=
  match settings.lookup "fpts", settings.lookup "fpts_decimal",
      settings.lookup "fpts_against", settings.lookup "fpts_against_decimal",
      settings.lookup "ppts", settings.lookup "ppts_decimal" with
  | some f, some fd, some fa, some fad, some p, some pd =>
    some ((f : ℚ) + (fd : ℚ) / 100, (fa : ℚ) + (fad : ℚ) / 100, (p : ℚ) + (pd : ℚ) / 100)
  | _, _, _, _, _, _ => none

/-! ### `build_matchups_df` (ff_league_analyzer.py lines 124-154) -/

/-- A raw per-team weekly entry as fetched from the API, keeping the
fields the self-join reads: `matchup_id` is `none` when absent (a bye). -/
structure RawMatchupRow where
  roster_id : Int
  matchup_id : Option Int
  points : ℚ
deriving DecidableEq

/-- A `df_scores` row after the per-week normalization. -/
structure ScoreRow where
  roster_id : Int
  week : Nat
  matchup_id : Int
  points : ℚ
deriving DecidableEq

/-- A row after the opponent self-join. -/
structure MergedRow where
  roster_id : Int
  week : Nat
  matchup_id : Int
  points : ℚ
  opponent_id : Int
  opp_points : ℚ
deriving DecidableEq

/-- A finished Matchups-table row. -/
structure MatchupRow where
  roster_id : Int
  week : Nat
  matchup_id : Int
  points : ℚ
  opponent_id : Int
  opp_points : ℚ
  result : String
deriving DecidableEq

/-- `astype(np.int8)`: wrap into `[-128, 127]`. -/
def toInt8 (n : Int) : Int := (n + 128).emod 256 - 128

/-- Lines 131-134: tag a raw row with its week and normalize a missing
matchup id to the bye sentinel `-1` (then cast to `int8`). -/
def normWeek (w : Nat) (r : RawMatchupRow) : ScoreRow :=
  { roster_id := r.roster_id, week := w, matchup_id := toInt8 (r.matchup_id.getD (-1)),
    points := r.points }

/-- Lines 129-139: `df_scores`, the concatenation of all normalized
weekly frames in week order. -/
def scoresOfInput (input : List (Nat × List RawMatchupRow)) : List ScoreRow :=
  input.flatMap (fun wk => wk.2.map (normWeek wk.1))

/-- Pair a left row with one matching right row of the self-merge: the
left row's own columns plus the right row's id and points as
`opponent_id`/`opp_points` (the merge suffixes). -/
def mkMergedRow (l r : ScoreRow) : MergedRow :=
  { roster_id := l.roster_id, week := l.week, matchup_id := l.matchup_id, points := l.points,
    opponent_id := r.roster_id, opp_points := r.points }

/-- Line 142: the left self-merge on `(week, matchup_id)`; each left row
is paired with every row sharing its key (itself included, so the left
merge never leaves the opponent columns null). -/
def mergeOpponents (scores : List ScoreRow) : List MergedRow :=
  scores.flatMap (fun l =>
    (scores.filter (fun r => r.week = l.week ∧ r.matchup_id = l.matchup_id)).map
      (fun r => mkMergedRow l r))

/-- Lines 145-151: `np.select` over the four conditions in order (the
bye sentinel is checked first), then the bye row's opponent id and
points are forced to `-1` and `0`. -/
def assignResult (m : MergedRow) : MatchupRow :=
  { roster_id := m.roster_id, week := m.week, matchup_id := m.matchup_id, points := m.points,
    opponent_id := if m.matchup_id = -1 then -1 else m.opponent_id,
    opp_points := if m.matchup_id = -1 then 0 else m.opp_points,
    result :=
      if m.matchup_id = -1 then "No matchup"
      else if m.points > m.opp_points then "Win"
      else if m.points = m.opp_points then "Tie"
      else "Loss" }

/-- `build_matchups_df` (lines 124-154) on the week-keyed raw payload:
merge, drop self-pairs (`query('roster_id != opponent_id')`), then
derive `result` and force the bye rows' opponent fields. -/
def buildMatchupsDf (input : List (Nat × List RawMatchupRow)) : List MatchupRow :=
  ((mergeOpponents (scoresOfInput input)).filter
    (fun m => m.roster_id ≠ m.opponent_id)).map assignResult

/-! ### `build_rosters_df` (ff_league_analyzer.py lines 12-17, 212-232) -/

/-- A raw roster record as normalized by `_pull_rosters`: the owner, the
roster id, and the four player-id lists. -/
structure RawRoster where
  owner_id : String
  roster_id : Int
  players : List String
  starters : List String
  taxi : List String
  reserve : List String
deriving DecidableEq

/-- A finished Rosters-table row. -/
structure RosterRow where
  owner_id : String
  roster_id : Int
  player_id : String
  roster_spot : String
  starting_pos : String
deriving DecidableEq

/-- `_get_roster_spot` (lines 12-17): membership tests in priority order. -/
def getRosterSpot (r : RawRoster) (p : String) : String :=
  if p ∈ r.starters then "starter"
  else if p ∈ r.taxi then "taxi"
  else if p ∈ r.reserve then "ir"
  else "bench"

/-- `df.owner_id.nunique()`: the number of distinct owner ids. -/
def nuniqueOwners (rosters : List RawRoster) : Nat :=
  (rosters.map RawRoster.owner_id).dedup.length

/-- Lines 214-218 (`df_starters`): explode each `(owner_id, starters)`
pair to one row per starter (rosters' starter lists are nonempty in the
situations the claims cover, so `explode` is a plain flat map), then
assign `starting_pos` positionally from
`starting_positions * df.owner_id.nunique()`; pandas raises when the
column length does not match the frame, modelled by `none`. -/
def starterLabels (starting_positions : List String) (rosters : List RawRoster) :
    Option (List ((String × String) × String)) :=
  let exploded := rosters.flatMap (fun r => r.starters.map (fun p => (r.owner_id, p)))
  let labels := (List.replicate (nuniqueOwners rosters) starting_positions).flatten
  if exploded.length = labels.length then some (exploded.zip labels) else none

/-- One player's slice of the left merge with `df_starters` on
`(owner_id, player_id)`: one output row per match, or a single row with
`starting_pos` filled as `"NA"` when there is none; `roster_spot` is
classified per row. -/
def playerRows (dfStarters : List ((String × String) × String)) (r : RawRoster)
    (p : String) : List RosterRow :=
  let hits := dfStarters.filter (fun e => e.1.1 = r.owner_id ∧ e.1.2 = p)
  if hits = [] then
    [{ owner_id := r.owner_id, roster_id := r.roster_id, player_id := p,
       roster_spot := getRosterSpot r p, starting_pos := "NA" }]
  else hits.map (fun e =>
    { owner_id := r.owner_id, roster_id := r.roster_id, player_id := p,
      roster_spot := getRosterSpot r p, starting_pos := e.2 })

/-- `build_rosters_df` (lines 212-232): explode each roster's `players`
list (nonempty in the situations the claims cover) and left-merge the
rows with `df_starters`. -/
def buildRostersDf (starting_positions : List String) (rosters : List RawRoster) :
    Option (List RosterRow) :=
  (starterLabels starting_positions rosters).map (fun dfStarters =>
    rosters.flatMap (fun r => r.players.flatMap (playerRows dfStarters r)))

/-- The `df_starters` frame, written as the per-roster positional pairing
it equals when every starter list matches the league slot list in length
and owners are distinct (the well-formed case, proved below): each
roster contributes `((owner_id, starter), slot)` in index order. -/
def taggedStarters (starting_positions : List String) (rosters : List RawRoster) :
    List ((String × String) × String) :=
  rosters.flatMap (fun r =>
    (r.starters.zip starting_positions).map (fun q => ((r.owner_id, q.1), q.2)))

/-! ### `get_weekly_scoring` (ff_league_analyzer.py lines 320-344) -/

/-- A Matchups-table row as `get_weekly_scoring` consumes it: the team
and week keys plus the `start_*` columns (column name paired with the
slot's score). -/
structure ScoringRow where
  roster_id : Int
  week : Nat
  startScores : List (String × ℚ)
deriving DecidableEq

/-- A long-form weekly-scoring row. -/
structure WeeklyRow where
  roster_id : Int
  week : Nat
  week_score : ℚ
  pos : String
  start_points : ℚ
deriving DecidableEq

/-- The value of one `start_*` column in a row. -/
def colScore (r : ScoringRow) (c : String) : ℚ := (r.startScores.lookup c).getD 0

/-- Line 330: `week_score`, the sum of the frame's `start_*` columns. -/
def weekScore (cols : List String) (r : ScoringRow) : ℚ := (cols.map (colScore r)).sum

/-- Line 335: the position label, `.str.replace('start_', '').str.upper()`. -/
def posLabel (c : String) : String := pyUpper (pyReplaceDrop "start_" c)

/-- Lines 331-335: `melt` over the `start_*` columns (`cols`), one output
row per column and input row, column-major as pandas produces it. -/
def meltScoring (cols : List String) (rows : List ScoringRow) : List WeeklyRow :=
  cols.flatMap (fun c => rows.map (fun r =>
    { roster_id := r.roster_id, week := r.week, week_score := weekScore cols r,
      pos := posLabel c, start_points := colScore r c }))

/-- The `sort_values(['week', 'week_score', 'roster_id'])` key, in
ascending lexicographic order. -/
def weeklyKey (a : WeeklyRow) : ℕ ×ₗ ℚ ×ₗ ℤ := toLex (a.week, toLex (a.week_score, a.roster_id))

/-- The row ordering of line 339 (all three sort keys ascending). -/
def weeklyLE (a b : WeeklyRow) : Prop := weeklyKey a ≤ weeklyKey b

instance : DecidableRel weeklyLE := fun a b => by unfold weeklyLE weeklyKey; infer_instance

instance : IsTotal WeeklyRow weeklyLE := ⟨fun a b => le_total (weeklyKey a) (weeklyKey b)⟩

instance : IsTrans WeeklyRow weeklyLE := ⟨fun _ _ _ h h' => le_trans h h'⟩

/-- `get_weekly_scoring` (lines 320-344) restricted to the columns the
claim mentions: melt the Matchups table's `start_*` columns to long form
and sort by `(week, week_score, roster_id)`. -/
def getWeeklyScoring (cols : List String) (rows : List ScoringRow) : List WeeklyRow :=
  List.insertionSort weeklyLE (meltScoring cols rows)

/-! ## Helper lemmas -/

theorem lookup_append_of_none {s : List (String × Int)} {k : String}
    (h : s.lookup k = none) (t : List (String × Int)) : (s ++ t).lookup k = t.lookup k := by
  induction s with
  | nil => rfl
  | cons a s ih =>
    rcases a with ⟨k', v⟩
    by_cases hk : k = k'
    · simp [List.lookup, hk] at h
    · simp only [List.lookup, List.cons_append, beq_iff_eq, hk, if_false] at h ⊢
      simp only [show (k == k') = false from beq_eq_false_iff_ne.mpr hk] at h ⊢
      exact ih h

theorem lookup_append_of_some {s : List (String × Int)} {k : String} {v : Int}
    (h : s.lookup k = some v) (t : List (String × Int)) : (s ++ t).lookup k = some v := by
  induction s with
  | nil => simp [List.lookup] at h
  | cons a s ih =>
    rcases a with ⟨k', v'⟩
    by_cases hk : k = k'
    · simp only [List.lookup, List.cons_append,
        show (k == k') = true from beq_iff_eq.mpr hk] at h ⊢
      exact h
    · simp only [List.lookup, List.cons_append,
        show (k == k') = false from beq_eq_false_iff_ne.mpr hk] at h ⊢
      exact ih h

theorem fillDefault_lookup_self (s : List (String × Int)) (k : String) :
    (fillDefault s k).lookup k = some ((s.lookup k).getD 0) := by
  unfold fillDefault
  rcases h : s.lookup k with _ | v
  · simp only [h, Option.isSome_none, Bool.false_eq_true, if_false, Option.getD_none]
    rw [lookup_append_of_none h]
    simp [List.lookup]
  · simp [h]

theorem fillDefault_lookup_ne (s : List (String × Int)) {k k' : String} (h : k' ≠ k) :
    (fillDefault s k).lookup k' = s.lookup k' := by
  unfold fillDefault
  split
  · rfl
  · rcases hl : s.lookup k' with _ | v
    · rw [lookup_append_of_none hl]
      simp [List.lookup, show (k' == k) = false from beq_eq_false_iff_ne.mpr h]
    · exact lookup_append_of_some hl _

theorem normalizeSettings_lookup (s : List (String × Int)) (k : String) :
    (normalizeSettings s).lookup k =
      if k ∈ defaultedSettings then some ((s.lookup k).getD 0) else s.lookup k := by
  have step : ∀ acc k', (fillDefault acc k').lookup k =
      if k = k' then some ((acc.lookup k).getD 0) else acc.lookup k := by
    intro acc k'
    by_cases hk : k = k'
    · subst hk; simp [fillDefault_lookup_self]
    · simp [hk, fillDefault_lookup_ne acc hk]
  show (List.foldl fillDefault s defaultedSettings).lookup k = _
  unfold defaultedSettings
  simp only [List.foldl_cons, List.foldl_nil, step, List.mem_cons, List.not_mem_nil, or_false]
  by_cases h1 : k = "fpts_decimal" <;> by_cases h2 : k = "fpts_against" <;>
    by_cases h3 : k = "fpts_against_decimal" <;> by_cases h4 : k = "ppts" <;>
    by_cases h5 : k = "ppts_decimal" <;>
    simp_all

/-! ## Claim theorems -/

/-- C10: for every entity name outside
`{"league", "players", "rosters", "users", "matchups"}`, `get_data`
returns an empty dictionary and leaves the whole session state — hence
every cached entity — unchanged. -/
theorem getData_unknown_is_noop (env : GatewayEnv) (data : String) (s : LeagueState)
    (h : data ∉ ["league", "players", "rosters", "users", "matchups"]) :
    getData env data s = (s, []) := by
  simp only [List.mem_cons, List.not_mem_nil, or_false, not_or] at h
  obtain ⟨h1, h2, h3, h4, h5⟩ := h
  simp [getData, h1, h2, h3, h4, h5]

/-- Witness for C10 at the concrete entity name `"teams"`. -/
theorem getData_unknown_is_noop_witness :
    getData ⟨[], [], [], []⟩ "teams" ⟨[("name", "x")], ⟨[], none, 0⟩, [], [], []⟩ =
      (⟨[("name", "x")], ⟨[], none, 0⟩, [], [], []⟩, []) :=
  getData_unknown_is_noop ⟨[], [], [], []⟩ "teams" ⟨[("name", "x")], ⟨[], none, 0⟩, [], [], []⟩
    (by decide)

/-- C9 counterexample: when a file tagged with today's date already
exists, two calls to the cached accessor issue zero upstream fetches,
not exactly one. -/
theorem getPlayersCached_two_calls_zero_pulls :
    (getPlayersCached [("1", "a")]
        (getPlayersCached [("1", "a")] ⟨[], some [("1", "a")], 0⟩).1).1.pulls = 0 ∧
      (0 : Nat) ≠ 1 := by
  constructor
  · rfl
  · decide

/-- C9 (amended): two same-day calls issue at most one upstream fetch —
exactly one when the in-memory catalog is empty and no file tagged with
today's date exists — the second call never fetches, and the second call
returns the in-memory catalog left by the first. -/
theorem getPlayersCached_twice (upstream : List (String × String)) (s : PlayersCache) :
    (getPlayersCached upstream (getPlayersCached upstream s).1).1.pulls ≤ s.pulls + 1 ∧
    (s.players = [] → s.todayFile = none →
      (getPlayersCached upstream (getPlayersCached upstream s).1).1.pulls = s.pulls + 1) ∧
    (getPlayersCached upstream (getPlayersCached upstream s).1).1.pulls
        = (getPlayersCached upstream s).1.pulls ∧
    (getPlayersCached upstream (getPlayersCached upstream s).1).2
        = (getPlayersCached upstream s).1.players := by
  by_cases hp : s.players = []
  · rcases hf : s.todayFile with _ | d
    · by_cases hu : upstream = [] <;>
        simp [getPlayersCached, hp, hf, hu]
    · by_cases hd : d = [] <;>
        simp [getPlayersCached, hp, hf, hd]
  · simp [getPlayersCached, hp]

/-- Witness for C9 (amended): from a fresh state with no file, the two
calls issue exactly one fetch. -/
theorem getPlayersCached_twice_witness :
    (getPlayersCached [("1", "a")] (getPlayersCached [("1", "a")] ⟨[], none, 0⟩).1).1.pulls
      = 0 + 1 :=
  (getPlayersCached_twice [("1", "a")] ⟨[], none, 0⟩).2.1 rfl rfl

theorem lookup_completionLog {α : Type} (fetch : Nat → α) (order : List Nat) (w : Nat)
    (h : w ∈ order) : (completionLog fetch order).lookup w = some (fetch w) := by
  induction order with
  | nil => simp at h
  | cons a t ih =>
    by_cases hw : w = a
    · subst hw
      simp [completionLog, List.lookup]
    · rcases List.mem_cons.mp h with h' | h'
      · exact absurd h' hw
      · simpa [completionLog, List.lookup,
          show (w == a) = false from beq_eq_false_iff_ne.mpr hw] using ih h'

theorem mapM_lookup_completionLog {α : Type} (fetch : Nat → α) (order : List Nat)
    (weeks : List Nat) (h : ∀ w ∈ weeks, w ∈ order) :
    weeks.mapM (fun w => (completionLog fetch order).lookup w) = some (weeks.map fetch) := by
  induction weeks with
  | nil => rfl
  | cons a t ih =>
    rw [List.mapM_cons, lookup_completionLog fetch order a (h a (List.mem_cons_self a t)),
      ih (fun w hw => h w (List.mem_cons_of_mem a hw))]
    rfl

/-- C8: whenever every submitted week completes (in any completion
order), the concurrent matchup-fetch path returns exactly the mapping
from each week in `[1, current_week]` to its fetched payload that the
sequential fallback builds. -/
theorem pullMatchupsAsync_eq_nonasync {α : Type} (current_week : Nat) (fetch : Nat → α)
    (order : List Nat) (hperm : order.Perm (List.range' 1 current_week)) :
    pullMatchupsAsync current_week fetch order = some (pullMatchupsNonasync current_week fetch) := by
  unfold pullMatchupsAsync pullMatchupsNonasync
  dsimp only
  rw [mapM_lookup_completionLog fetch order _ (fun w hw => hperm.mem_iff.mpr hw)]
  have hz : (List.range' 1 current_week).zip ((List.range' 1 current_week).map fetch) =
      (List.range' 1 current_week).map (fun w => (w, fetch w)) := by
    have := List.zip_map' id fetch (List.range' 1 current_week)
    simpa using this
  simp [hz]

/-- Witness for C8: three weeks completing out of order. -/
theorem pullMatchupsAsync_eq_nonasync_witness :
    pullMatchupsAsync 3 (fun w => w + 10) [2, 3, 1] =
      some (pullMatchupsNonasync 3 (fun w => w + 10)) :=
  pullMatchupsAsync_eq_nonasync 3 (fun w => w + 10) [2, 3, 1] (by decide)

/-- C7: for every settings dict that carries the (never-defaulted)
`fpts` field, the team points rebuilt from the `_pull_rosters`-normalized
settings are `whole + decimal/100` over the integer upstream fields,
with the preseason-defaulted fields read as 0. -/
theorem buildTeamPoints_normalized (settings : List (String × Int)) (f : Int)
    (hf : settings.lookup "fpts" = some f) :
    buildTeamPoints (normalizeSettings settings) =
      some ((f : ℚ) + (((settings.lookup "fpts_decimal").getD 0 : Int) : ℚ) / 100,
        (((settings.lookup "fpts_against").getD 0 : Int) : ℚ) +
          (((settings.lookup "fpts_against_decimal").getD 0 : Int) : ℚ) / 100,
        (((settings.lookup "ppts").getD 0 : Int) : ℚ) +
          (((settings.lookup "ppts_decimal").getD 0 : Int) : ℚ) / 100) := by
  unfold buildTeamPoints
  rw [normalizeSettings_lookup, normalizeSettings_lookup, normalizeSettings_lookup,
    normalizeSettings_lookup, normalizeSettings_lookup, normalizeSettings_lookup]
  simp [defaultedSettings, hf]

theorem pyInsert_perm (l : List String) (n : Nat) (x : String) :
    (pyInsert l n x).Perm (x :: l) := by
  induction l generalizing n with
  | nil => cases n <;> simp [pyInsert]
  | cons h t ih =>
    cases n with
    | zero => simp [pyInsert]
    | succ m =>
      exact ((ih m).cons h).trans (List.Perm.swap x h t)

theorem pyInsert_before_first {l : List String} {b : String} (h : b ∈ l) (a : String) :
    ∃ l1 l2, l = l1 ++ b :: l2 ∧ pyInsert l (pyIndex b l) a = l1 ++ a :: b :: l2 := by
  induction l with
  | nil => simp at h
  | cons c t ih =>
    by_cases hc : c = b
    · subst hc
      exact ⟨[], t, rfl, by simp [pyIndex, pyInsert]⟩
    · have hb : b ∈ t := by
        rcases List.mem_cons.mp h with h' | h'
        · exact absurd h'.symm hc
        · exact h'
      obtain ⟨l1, l2, he, hi⟩ := ih hb
      refine ⟨c :: l1, l2, by simp [he], ?_⟩
      simp [pyIndex, hc, pyInsert, hi]

theorem mem_pyRemove_of_ne {x a : String} (l : List String) (h : x ≠ a) :
    x ∈ pyRemove a l ↔ x ∈ l := by
  induction l with
  | nil => simp [pyRemove]
  | cons c t ih =>
    by_cases hc : c = a
    · subst hc
      simp [pyRemove, List.mem_cons, h, ih]
    · simp [pyRemove, hc, List.mem_cons, ih]

theorem not_mem_pyRemove_self {a : String} {l : List String} (h : l.Nodup) :
    a ∉ pyRemove a l := by
  induction l with
  | nil => simp [pyRemove]
  | cons c t ih =>
    rw [List.nodup_cons] at h
    by_cases hc : c = a
    · subst hc
      simpa [pyRemove] using h.1
    · simp only [pyRemove, hc, if_false, List.mem_cons, not_or]
      exact ⟨fun he => hc he.symm, ih h.2⟩

theorem pyRemove_append_adj {l1 l2 : List String} {x y a : String}
    (hx : x ≠ a) (hy : y ≠ a) :
    ∃ m1 m2, pyRemove a (l1 ++ x :: y :: l2) = m1 ++ x :: y :: m2 := by
  induction l1 with
  | nil =>
    refine ⟨[], pyRemove a l2, ?_⟩
    simp [pyRemove, hx, hy]
  | cons c t ih =>
    by_cases hc : c = a
    · exact ⟨t, l2, by simp [pyRemove, hc]⟩
    · obtain ⟨m1, m2, hm⟩ := ih
      refine ⟨c :: m1, m2, ?_⟩
      simp only [List.cons_append, pyRemove, hc, if_false]
      exact congrArg (List.cons c) hm

/-- C3: for the league configuration
`["QB","RB","WR","TE","FLEX","BN","DL","LB"]`, whatever order Python's
`set` gives the deduplicated starting positions, the ordered roster
positions contain neither `FLEX` nor `BN`, and `"DL/LB"` appears
immediately before `"LB"`. -/
theorem orderedRosterPositions_scenario (dedup : List String) (hnd : dedup.Nodup)
    (hmem : ∀ x, x ∈ dedup ↔
      x ∈ startingPositions ["QB", "RB", "WR", "TE", "FLEX", "BN", "DL", "LB"]) :
    "FLEX" ∉ orderedRosterPositions dedup ∧ "BN" ∉ orderedRosterPositions dedup ∧
      ∃ l1 l2, orderedRosterPositions dedup = l1 ++ "DL/LB" :: "LB" :: l2 := by
  have hsp : startingPositions ["QB", "RB", "WR", "TE", "FLEX", "BN", "DL", "LB"] =
      ["QB", "RB", "WR", "TE", "FLEX", "DL", "LB"] := rfl
  rw [hsp] at hmem
  have hDL : "DL" ∈ dedup := (hmem "DL").mpr (by decide)
  have hLB : "LB" ∈ dedup := (hmem "LB").mpr (by decide)
  have hFLEX : "FLEX" ∈ dedup := (hmem "FLEX").mpr (by decide)
  have hCB : "CB" ∉ dedup := fun h => by have h' := (hmem "CB").mp h; revert h'; decide
  have hBN : "BN" ∉ dedup := fun h => by have h' := (hmem "BN").mp h; revert h'; decide
  have hDLLB : "DL/LB" ∉ dedup := fun h => by have h' := (hmem "DL/LB").mp h; revert h'; decide
  obtain ⟨l1, l2, he, hi⟩ := pyInsert_before_first hLB "DL/LB"
  have hperm := pyInsert_perm dedup (pyIndex "LB" dedup) "DL/LB"
  have hCB1 : "CB" ∉ pyInsert dedup (pyIndex "LB" dedup) "DL/LB" := fun h => by
    rcases List.mem_cons.mp (hperm.mem_iff.mp h) with h' | h'
    · revert h'; decide
    · exact hCB h'
  have hFLEX1 : "FLEX" ∈ pyInsert dedup (pyIndex "LB" dedup) "DL/LB" :=
    hperm.mem_iff.mpr (List.mem_cons_of_mem _ hFLEX)
  have hBN1 : "BN" ∉ pyInsert dedup (pyIndex "LB" dedup) "DL/LB" := fun h => by
    rcases List.mem_cons.mp (hperm.mem_iff.mp h) with h' | h'
    · revert h'; decide
    · exact hBN h'
  have hnd1 : (pyInsert dedup (pyIndex "LB" dedup) "DL/LB").Nodup :=
    hperm.nodup_iff.mpr (List.nodup_cons.mpr ⟨hDLLB, hnd⟩)
  have e1 : insertDLLB dedup = pyInsert dedup (pyIndex "LB" dedup) "DL/LB" := by
    unfold insertDLLB
    exact if_pos ⟨hDL, hLB⟩
  have e2 : insertLBDB (insertDLLB dedup) = pyInsert dedup (pyIndex "LB" dedup) "DL/LB" := by
    rw [e1]
    unfold insertLBDB
    exact if_neg (fun hc => hCB1 hc.2)
  have e3 : orderedRosterPositions dedup =
      pyRemove "FLEX" (pyInsert dedup (pyIndex "LB" dedup) "DL/LB") := by
    unfold orderedRosterPositions removeFlex
    rw [e2]
    exact if_pos hFLEX1
  rw [e3]
  refine ⟨not_mem_pyRemove_self hnd1, ?_, ?_⟩
  · exact fun h => hBN1 ((mem_pyRemove_of_ne _ (by decide)).mp h)
  · rw [hi]
    exact pyRemove_append_adj (by decide) (by decide)

/-- Witness for C3: one concrete order of the deduplicated starting
positions. -/
theorem orderedRosterPositions_scenario_witness :
    "FLEX" ∉ orderedRosterPositions ["QB", "RB", "WR", "TE", "FLEX", "DL", "LB"] ∧
    "BN" ∉ orderedRosterPositions ["QB", "RB", "WR", "TE", "FLEX", "DL", "LB"] ∧
      ∃ l1 l2, orderedRosterPositions ["QB", "RB", "WR", "TE", "FLEX", "DL", "LB"] =
        l1 ++ "DL/LB" :: "LB" :: l2 :=
  orderedRosterPositions_scenario ["QB", "RB", "WR", "TE", "FLEX", "DL", "LB"]
    (by decide) (fun _ => Iff.rfl)

theorem guarded_erase (l : List String) (a : String) :
    (if a ∈ l then l.erase a else l) = l.erase a := by
  split
  · rfl
  · exact (List.erase_of_not_mem (by assumption)).symm

theorem erase_three_eq_filter {l : List String} (h : l.Nodup) :
    ((l.erase "LEO").erase "LS").erase "P" =
      l.filter (fun x => x ≠ "LEO" ∧ x ≠ "LS" ∧ x ≠ "P") := by
  rw [h.erase_eq_filter "LEO", (h.filter _).erase_eq_filter "LS",
    ((h.filter _).filter _).erase_eq_filter "P", List.filter_filter, List.filter_filter]
  apply List.filter_congr
  intro x _
  by_cases h1 : x = "LEO" <;> by_cases h2 : x = "LS" <;> by_cases h3 : x = "P" <;> simp_all

theorem dropUnusedPositions_eq_spec_filter {positions : List String} (h : positions.Nodup) :
    dropUnusedPositions positions = pySortStrings (positions.filter
      (fun pos => pos.data.head? ≠ some 'O' ∧ pos ≠ "LEO" ∧ pos ≠ "LS" ∧ pos ≠ "P")) := by
  simp only [dropUnusedPositions]
  rw [guarded_erase, guarded_erase, guarded_erase, erase_three_eq_filter (h.filter _),
    List.filter_filter]
  congr 1
  apply List.filter_congr
  intro x _
  by_cases hO : x.data.head? = some 'O' <;> by_cases hLEO : x = "LEO" <;>
    by_cases hLS : x = "LS" <;> by_cases hP : x = "P" <;>
    simp_all

theorem fantasyPos_eq_spec {fp : Option (List String)} (h : (fp.getD []).Nodup) :
    fantasyPos fp = specFantasyPos (fp.getD []) := by
  unfold fantasyPos specFantasyPos
  rw [dropUnusedPositions_eq_spec_filter h]

theorem option_getD_false_iff (o : Option Bool) : o.getD false = true ↔ o = some true := by
  cases o <;> simp

/-- C6: the Players table contains exactly the catalog entries with
`active == true` whose derived `fantasy_pos` — the eligibility list with
every code starting with `O` and the codes `LEO`, `LS`, `P` dropped,
sorted and slash-joined — is non-empty; an entry with
`fantasy_positions = ["OLB","LS"]` derives `""` and is excluded. -/
theorem buildPlayersDf_exactly (catalog : List CatalogEntry)
    (hnd : ∀ p ∈ catalog, (p.fantasy_positions.getD []).Nodup) :
    (∀ pid pos, (pid, pos) ∈ buildPlayersDf catalog ↔
      ∃ p ∈ catalog, p.player_id = pid ∧ p.active = some true ∧
        pos = specFantasyPos (p.fantasy_positions.getD []) ∧ pos ≠ "") ∧
    specFantasyPos ["OLB", "LS"] = "" ∧
    buildPlayersDf [⟨"9000", some true, some ["OLB", "LS"]⟩] = [] := by
  refine ⟨?_, rfl, rfl⟩
  intro pid pos
  constructor
  · intro hm
    unfold buildPlayersDf at hm
    rw [List.mem_filter] at hm
    obtain ⟨hm1, hne⟩ := hm
    rw [List.mem_map] at hm1
    obtain ⟨p, hp, hfp⟩ := hm1
    rw [List.mem_filter] at hp
    obtain ⟨hpc, hact⟩ := hp
    obtain ⟨hid, hpos⟩ := Prod.mk.injEq .. ▸ hfp
    refine ⟨p, hpc, hid, ?_, ?_, ?_⟩
    · exact (option_getD_false_iff p.active).mp (by simpa using hact)
    · rw [← hpos, fantasyPos_eq_spec (hnd p hpc)]
    · simpa using hne
  · rintro ⟨p, hpc, hid, hact, hpos, hne⟩
    unfold buildPlayersDf
    rw [List.mem_filter]
    constructor
    · rw [List.mem_map]
      refine ⟨p, ?_, ?_⟩
      · rw [List.mem_filter]
        exact ⟨hpc, by simp [hact]⟩
      · rw [Prod.mk.injEq]
        refine ⟨hid, ?_⟩
        rw [fantasyPos_eq_spec (hnd p hpc)]
        exact hpos.symm
    · simpa using hne

/-- Witness for C6: a two-entry catalog — an active QB is kept with
`fantasy_pos = "QB"`, and the `["OLB","LS"]` entry is excluded. -/
theorem buildPlayersDf_exactly_witness :
    (("1", "QB") ∈ buildPlayersDf [⟨"1", some true, some ["QB"]⟩,
      ⟨"9000", some true, some ["OLB", "LS"]⟩]) ∧
    specFantasyPos ["OLB", "LS"] = "" := by
  have h := buildPlayersDf_exactly
    [⟨"1", some true, some ["QB"]⟩, ⟨"9000", some true, some ["OLB", "LS"]⟩]
    (by decide)
  refine ⟨(h.1 "1" "QB").mpr ⟨⟨"1", some true, some ["QB"]⟩, by decide, rfl, rfl, by decide, by decide⟩,
    h.2.1⟩

/-- C4 counterexample: `get_weekly_scoring` sorts `week_score`
ascending, not descending — with two teams in week 1 scoring 10 and 20,
the 10-point team's rows come first, so the output is not sorted by week
then descending weekly score. -/
theorem getWeeklyScoring_not_desc_sorted :
    ¬ List.Sorted
      (fun a b : WeeklyRow => a.week < b.week ∨ (a.week = b.week ∧ a.week_score ≥ b.week_score))
      (getWeeklyScoring ["start_qb"]
        [⟨1, 1, [("start_qb", 10)]⟩, ⟨2, 1, [("start_qb", 20)]⟩]) := by
  have c1 : colScore ⟨1, 1, [("start_qb", 10)]⟩ "start_qb" = 10 := rfl
  have c2 : colScore ⟨2, 1, [("start_qb", 20)]⟩ "start_qb" = 20 := rfl
  have ws1 : weekScore ["start_qb"] ⟨1, 1, [("start_qb", 10)]⟩ = 10 := by
    simp [weekScore, c1]
  have ws2 : weekScore ["start_qb"] ⟨2, 1, [("start_qb", 20)]⟩ = 20 := by
    simp [weekScore, c2]
  have hm : meltScoring ["start_qb"] [⟨1, 1, [("start_qb", 10)]⟩, ⟨2, 1, [("start_qb", 20)]⟩] =
      [⟨1, 1, 10, posLabel "start_qb", 10⟩, ⟨2, 1, 20, posLabel "start_qb", 20⟩] := by
    simp [meltScoring, ws1, ws2, c1, c2]
  have le12 : weeklyLE ⟨1, 1, 10, posLabel "start_qb", 10⟩ ⟨2, 1, 20, posLabel "start_qb", 20⟩ := by
    unfold weeklyLE weeklyKey
    rw [Prod.Lex.le_iff]
    refine Or.inr ⟨rfl, ?_⟩
    rw [Prod.Lex.le_iff]
    exact Or.inl (by norm_num)
  have e : getWeeklyScoring ["start_qb"]
      [⟨1, 1, [("start_qb", 10)]⟩, ⟨2, 1, [("start_qb", 20)]⟩] =
      [⟨1, 1, 10, posLabel "start_qb", 10⟩, ⟨2, 1, 20, posLabel "start_qb", 20⟩] := by
    unfold getWeeklyScoring
    rw [hm]
    simp only [List.insertionSort, List.orderedInsert, if_pos le12]
  intro hs
  rw [e] at hs
  have h := List.rel_of_sorted_cons hs _ (List.mem_cons_self _ _)
  rcases h with h | ⟨_, h⟩
  · exact absurd h (by norm_num)
  · exact absurd h (by norm_num)

/-- C4 (amended): the weekly-scoring view is the melt of the Matchups
table's `start_*` columns — one row per input row and starting-slot
column, the position label obtained by dropping `start_` and
upper-casing — sorted ascending by week, then ascending (not descending)
aggregate weekly score, with ties broken by roster id. -/
theorem getWeeklyScoring_shape (cols : List String) (rows : List ScoringRow) :
    List.Sorted weeklyLE (getWeeklyScoring cols rows) ∧
    (getWeeklyScoring cols rows).Perm (meltScoring cols rows) ∧
    (meltScoring cols rows).length = cols.length * rows.length ∧
    (∀ wr ∈ getWeeklyScoring cols rows, ∃ c ∈ cols, ∃ r ∈ rows,
      wr = { roster_id := r.roster_id, week := r.week, week_score := weekScore cols r,
             pos := posLabel c, start_points := colScore r c }) := by
  refine ⟨List.sorted_insertionSort _ _, List.perm_insertionSort _ _, ?_, ?_⟩
  · rw [meltScoring, List.length_flatMap]
    simp [Function.comp_def, mul_comm]
  · intro wr hwr
    have hmem := (List.perm_insertionSort weeklyLE (meltScoring cols rows)).mem_iff.mp hwr
    rw [meltScoring, List.mem_flatMap] at hmem
    obtain ⟨c, hc, hm⟩ := hmem
    rw [List.mem_map] at hm
    obtain ⟨r, hr, he⟩ := hm
    exact ⟨c, hc, r, hr, he.symm⟩

/-- Witness for C4 (amended): the melt of a 1-column, 2-row table has
`1 * 2` rows. -/
theorem getWeeklyScoring_shape_witness :
    (meltScoring ["start_qb"]
      [⟨1, 1, [("start_qb", 10)]⟩, ⟨2, 1, [("start_qb", 20)]⟩]).length = 1 * 2 :=
  (getWeeklyScoring_shape ["start_qb"]
    [⟨1, 1, [("start_qb", 10)]⟩, ⟨2, 1, [("start_qb", 20)]⟩]).2.2.1

theorem assignResult_bye {m : MergedRow} (h : m.matchup_id = -1) :
    (assignResult m).result = "No matchup" ∧ (assignResult m).opponent_id = -1 ∧
      (assignResult m).opp_points = 0 := by
  simp [assignResult, h]

/-- C1 counterexample: a team-week row whose matchup id is missing
(normalized to the bye sentinel -1) is NOT present in the Matchups table
when it is the only such row in its week — the self-join pairs it only
with itself and `query('roster_id != opponent_id')` drops it. -/
theorem buildMatchupsDf_lone_bye_dropped :
    buildMatchupsDf [(1, [{ roster_id := 1, matchup_id := none, points := 10 }])] = [] := rfl

/-- C1 (amended): every Matchups-table row whose matchup id is the bye
sentinel -1 has `result = "No matchup"` regardless of points, with
`opponent_id` forced to -1 and `opp_points` forced to 0, and every
non-bye row has result Win/Tie/Loss by comparing the row's points with
the opponent's; a bye team-week row appears in the table only when some
other row of the same week also carries the sentinel (a lone bye row is
dropped by the self-join), and it does appear whenever such a partner
row with a different roster id exists. -/
theorem buildMatchupsDf_results :
    (∀ (input : List (Nat × List RawMatchupRow)) (m : MatchupRow), m ∈ buildMatchupsDf input →
      (m.matchup_id = -1 →
        m.result = "No matchup" ∧ m.opponent_id = -1 ∧ m.opp_points = 0) ∧
      (m.matchup_id ≠ -1 →
        (m.result = "Win" ↔ m.opp_points < m.points) ∧
        (m.result = "Tie" ↔ m.points = m.opp_points) ∧
        (m.result = "Loss" ↔ m.points < m.opp_points))) ∧
    (∀ (input : List (Nat × List RawMatchupRow)) (w : Nat) (pl : List RawMatchupRow)
      (a b : RawMatchupRow), (w, pl) ∈ input → a ∈ pl → b ∈ pl →
      toInt8 (a.matchup_id.getD (-1)) = -1 → toInt8 (b.matchup_id.getD (-1)) = -1 →
      a.roster_id ≠ b.roster_id →
      ∃ m ∈ buildMatchupsDf input, m.roster_id = a.roster_id ∧ m.week = w ∧
        m.points = a.points ∧ m.result = "No matchup" ∧ m.opponent_id = -1 ∧
        m.opp_points = 0) := by
  constructor
  · intro input m hm
    unfold buildMatchupsDf at hm
    rw [List.mem_map] at hm
    obtain ⟨mr, hmr, he⟩ := hm
    subst he
    have hres : (assignResult mr).result = if mr.matchup_id = -1 then "No matchup"
        else if mr.points > mr.opp_points then "Win"
        else if mr.points = mr.opp_points then "Tie" else "Loss" := rfl
    have hopp : (assignResult mr).opponent_id =
        if mr.matchup_id = -1 then -1 else mr.opponent_id := rfl
    have hopts : (assignResult mr).opp_points =
        if mr.matchup_id = -1 then 0 else mr.opp_points := rfl
    have hmid : (assignResult mr).matchup_id = mr.matchup_id := rfl
    have hpts : (assignResult mr).points = mr.points := rfl
    rw [hres, hopp, hopts, hmid, hpts]
    by_cases hb : mr.matchup_id = -1
    · refine ⟨fun _ => ?_, fun hne => absurd hb hne⟩
      simp only [if_pos hb]
      exact ⟨trivial, trivial, trivial⟩
    · refine ⟨fun hc => absurd hc hb, fun _ => ?_⟩
      simp only [if_neg hb]
      rcases lt_trichotomy mr.points mr.opp_points with h | h | h
      · rw [if_neg (lt_asymm h), if_neg (ne_of_lt h)]
        exact ⟨iff_of_false (by decide) (lt_asymm h),
          iff_of_false (by decide) (ne_of_lt h), iff_of_true rfl h⟩
      · rw [if_neg (h ▸ lt_irrefl mr.points), if_pos h]
        exact ⟨iff_of_false (by decide) (h ▸ lt_irrefl mr.points),
          iff_of_true rfl h, iff_of_false (by decide) (h ▸ lt_irrefl mr.points)⟩
      · rw [if_pos h]
        exact ⟨iff_of_true rfl h, iff_of_false (by decide) (ne_of_gt h),
          iff_of_false (by decide) (lt_asymm h)⟩
  · intro input w pl a b hin hpa hpb hma hmb hab
    have ha_mem : normWeek w a ∈ scoresOfInput input :=
      List.mem_flatMap.mpr ⟨(w, pl), hin, List.mem_map.mpr ⟨a, hpa, rfl⟩⟩
    have hb_mem : normWeek w b ∈ scoresOfInput input :=
      List.mem_flatMap.mpr ⟨(w, pl), hin, List.mem_map.mpr ⟨b, hpb, rfl⟩⟩
    have hfil : normWeek w b ∈ (scoresOfInput input).filter
        (fun r => r.week = (normWeek w a).week ∧ r.matchup_id = (normWeek w a).matchup_id) :=
      List.mem_filter.mpr ⟨hb_mem, by simp [normWeek, hma, hmb]⟩
    have hmerged : mkMergedRow (normWeek w a) (normWeek w b) ∈
        mergeOpponents (scoresOfInput input) :=
      List.mem_flatMap.mpr ⟨normWeek w a, ha_mem, List.mem_map.mpr ⟨normWeek w b, hfil, rfl⟩⟩
    have hkept : mkMergedRow (normWeek w a) (normWeek w b) ∈
        (mergeOpponents (scoresOfInput input)).filter
          (fun m => m.roster_id ≠ m.opponent_id) :=
      List.mem_filter.mpr ⟨hmerged, by simp [mkMergedRow, normWeek, hab]⟩
    refine ⟨assignResult (mkMergedRow (normWeek w a) (normWeek w b)),
      List.mem_map.mpr ⟨_, hkept, rfl⟩, ?_⟩
    have hm1 : (mkMergedRow (normWeek w a) (normWeek w b)).matchup_id = -1 := hma
    obtain ⟨hr1, hr2, hr3⟩ := assignResult_bye hm1
    exact ⟨rfl, rfl, rfl, hr1, hr2, hr3⟩

/-- Witness for C1 (amended): two bye teams in the same week both appear
with `No matchup` and forced opponent fields. -/
theorem buildMatchupsDf_results_witness :
    ∃ m ∈ buildMatchupsDf [(1, [{ roster_id := 1, matchup_id := none, points := 10 },
        { roster_id := 2, matchup_id := none, points := 20 }])],
      m.roster_id = 1 ∧ m.week = 1 ∧ m.points = 10 ∧ m.result = "No matchup" ∧
        m.opponent_id = -1 ∧ m.opp_points = 0 :=
  buildMatchupsDf_results.2 [(1, [{ roster_id := 1, matchup_id := none, points := 10 },
      { roster_id := 2, matchup_id := none, points := 20 }])] 1
    [{ roster_id := 1, matchup_id := none, points := 10 },
     { roster_id := 2, matchup_id := none, points := 20 }]
    { roster_id := 1, matchup_id := none, points := 10 }
    { roster_id := 2, matchup_id := none, points := 20 }
    (by decide) (by decide) (by decide) (by decide) (by decide) (by decide)

/-- Witness for C7: `fpts=105, fpts_decimal=50` yields `points_for = 105.5`
(the other four fields default to 0). -/
theorem buildTeamPoints_normalized_witness :
    buildTeamPoints (normalizeSettings [("fpts", 105), ("fpts_decimal", 50)]) =
      some ((105.5 : ℚ), (0 : ℚ), (0 : ℚ)) := by
  rw [buildTeamPoints_normalized [("fpts", 105), ("fpts_decimal", 50)] 105 rfl,
    show (List.lookup "fpts_decimal"
      ([("fpts", 105), ("fpts_decimal", 50)] : List (String × Int))).getD 0 = 50 from rfl,
    show (List.lookup "fpts_against"
      ([("fpts", 105), ("fpts_decimal", 50)] : List (String × Int))).getD 0 = 0 from rfl,
    show (List.lookup "fpts_against_decimal"
      ([("fpts", 105), ("fpts_decimal", 50)] : List (String × Int))).getD 0 = 0 from rfl,
    show (List.lookup "ppts"
      ([("fpts", 105), ("fpts_decimal", 50)] : List (String × Int))).getD 0 = 0 from rfl,
    show (List.lookup "ppts_decimal"
      ([("fpts", 105), ("fpts_decimal", 50)] : List (String × Int))).getD 0 = 0 from rfl]
  norm_num

theorem flatMap_nil_of_forall {α β : Type} {l : List α} {f : α → List β}
    (h : ∀ x ∈ l, f x = []) : l.flatMap f = [] := by
  induction l with
  | nil => rfl
  | cons hd tl ih =>
    rw [List.flatMap_cons, h hd (List.mem_cons_self hd tl), List.nil_append]
    exact ih (fun x hx => h x (List.mem_cons_of_mem hd hx))

theorem flatMap_single_week {β : Type} (input : List (Nat × List RawMatchupRow)) (w : Nat)
    (pl : List RawMatchupRow) (hkeys : (input.map Prod.fst).Nodup) (hin : (w, pl) ∈ input)
    (g : Nat → List RawMatchupRow → List β)
    (hz : ∀ w' pl', (w', pl') ∈ input → w' ≠ w → g w' pl' = []) :
    input.flatMap (fun wk => g wk.1 wk.2) = g w pl := by
  induction input with
  | nil => cases hin
  | cons hd tl ih =>
    obtain ⟨w1, pl1⟩ := hd
    rw [List.map_cons, List.nodup_cons] at hkeys
    rw [List.flatMap_cons]
    rcases List.mem_cons.mp hin with he | hin'
    · obtain ⟨hw1, hpl1⟩ := Prod.mk.injEq .. ▸ he.symm
      subst hw1
      subst hpl1
      have h1 : tl.flatMap (fun wk => g wk.1 wk.2) = [] := by
        apply flatMap_nil_of_forall
        intro wk hwk
        refine hz wk.1 wk.2 (List.mem_cons_of_mem _ hwk) (fun hew => ?_)
        exact hkeys.1 (hew ▸ List.mem_map.mpr ⟨wk, hwk, rfl⟩)
      rw [h1, List.append_nil]
    · have hw : w ∈ tl.map Prod.fst := List.mem_map.mpr ⟨(w, pl), hin', rfl⟩
      have hne : w1 ≠ w := fun he => hkeys.1 (he ▸ hw)
      rw [hz w1 pl1 (List.mem_cons_self _ _) hne, List.nil_append]
      exact ih hkeys.2 hin' (fun w' pl' h hne' => hz w' pl' (List.mem_cons_of_mem _ h) hne')

theorem flatMap_ite_filter {α β : Type} (S : List α) (p : α → Bool) (f : α → List β) :
    S.flatMap (fun l => if p l then f l else []) = (S.filter p).flatMap f := by
  induction S with
  | nil => rfl
  | cons hd tl ih =>
    rw [List.flatMap_cons, ih]
    by_cases hp : p hd
    · rw [if_pos hp, List.filter_cons_of_pos hp, List.flatMap_cons]
    · rw [if_neg hp, List.filter_cons_of_neg (by simpa using hp), List.nil_append]

theorem scores_filter_pair (input : List (Nat × List RawMatchupRow)) (w : Nat)
    (pl : List RawMatchupRow) (m : Int) (a b : RawMatchupRow)
    (hkeys : (input.map Prod.fst).Nodup) (hin : (w, pl) ∈ input)
    (hfil : pl.filter (fun r => toInt8 (r.matchup_id.getD (-1)) = m) = [a, b]) :
    (scoresOfInput input).filter (fun r => r.week = w ∧ r.matchup_id = m) =
      [normWeek w a, normWeek w b] := by
  unfold scoresOfInput
  rw [List.filter_flatMap]
  have hmain : (input.flatMap (fun wk =>
      (wk.2.map (normWeek wk.1)).filter (fun r => r.week = w ∧ r.matchup_id = m))) =
      (pl.map (normWeek w)).filter (fun r => r.week = w ∧ r.matchup_id = m) :=
    flatMap_single_week input w pl hkeys hin
      (fun w' pl' => (pl'.map (normWeek w')).filter (fun r => r.week = w ∧ r.matchup_id = m))
      (by
        intro w' pl' _ hne
        rw [List.filter_eq_nil_iff]
        intro r hr
        rw [List.mem_map] at hr
        obtain ⟨x, _, hx⟩ := hr
        subst hx
        simp [normWeek, hne])
  rw [hmain, List.filter_map]
  have hcongr : pl.filter ((fun r => decide (r.week = w ∧ r.matchup_id = m)) ∘ normWeek w) =
      pl.filter (fun r => toInt8 (r.matchup_id.getD (-1)) = m) := by
    apply List.filter_congr
    intro x _
    simp [normWeek]
  rw [hcongr, hfil]
  rfl

theorem flatMap_congr_mem {α β : Type} {l : List α} {f g : α → List β}
    (h : ∀ x ∈ l, f x = g x) : l.flatMap f = l.flatMap g := by
  induction l with
  | nil => rfl
  | cons hd tl ih =>
    rw [List.flatMap_cons, List.flatMap_cons, h hd (List.mem_cons_self hd tl),
      ih (fun x hx => h x (List.mem_cons_of_mem hd hx))]

theorem merge_filter_pair (S : List ScoreRow) (w : Nat) (m : Int) (na nb : ScoreRow)
    (hS : S.filter (fun r => r.week = w ∧ r.matchup_id = m) = [na, nb]) :
    (mergeOpponents S).filter (fun r => r.week = w ∧ r.matchup_id = m) =
      [mkMergedRow na na, mkMergedRow na nb, mkMergedRow nb na, mkMergedRow nb nb] := by
  have hna : na.week = w ∧ na.matchup_id = m := by
    have h1 : na ∈ S.filter (fun r => r.week = w ∧ r.matchup_id = m) := by
      rw [hS]; exact List.mem_cons_self _ _
    simpa using (List.mem_filter.mp h1).2
  have hnb : nb.week = w ∧ nb.matchup_id = m := by
    have h1 : nb ∈ S.filter (fun r => r.week = w ∧ r.matchup_id = m) := by
      rw [hS]; exact List.mem_cons_of_mem _ (List.mem_cons_self _ _)
    simpa using (List.mem_filter.mp h1).2
  have hKna : S.filter (fun r => r.week = na.week ∧ r.matchup_id = na.matchup_id) = [na, nb] := by
    rw [← hS]
    apply List.filter_congr
    intro x _
    rw [hna.1, hna.2]
  have hKnb : S.filter (fun r => r.week = nb.week ∧ r.matchup_id = nb.matchup_id) = [na, nb] := by
    rw [← hS]
    apply List.filter_congr
    intro x _
    rw [hnb.1, hnb.2]
  unfold mergeOpponents
  rw [List.filter_flatMap]
  have hinner : ∀ l ∈ S, ((S.filter
        (fun r => r.week = l.week ∧ r.matchup_id = l.matchup_id)).map
        (fun r => mkMergedRow l r)).filter (fun r => r.week = w ∧ r.matchup_id = m) =
      if (fun l : ScoreRow => decide (l.week = w ∧ l.matchup_id = m)) l then
        (S.filter (fun r => r.week = l.week ∧ r.matchup_id = l.matchup_id)).map
          (fun r => mkMergedRow l r)
      else [] := by
    intro l _
    by_cases hl : l.week = w ∧ l.matchup_id = m
    · rw [if_pos (by simpa using hl)]
      apply List.filter_eq_self.mpr
      intro r hr
      rw [List.mem_map] at hr
      obtain ⟨x, _, hx⟩ := hr
      subst hx
      simpa [mkMergedRow] using hl
    · rw [if_neg (by simpa using hl)]
      apply List.filter_eq_nil_iff.mpr
      intro r hr
      rw [List.mem_map] at hr
      obtain ⟨x, _, hx⟩ := hr
      subst hx
      simpa [mkMergedRow] using hl
  rw [flatMap_congr_mem hinner, flatMap_ite_filter, hS, List.flatMap_cons, List.flatMap_cons,
    List.flatMap_nil, List.append_nil, hKna, hKnb]
  rfl

/-- C2: for every week of the payload whose rows with a given non-bye
matchup id are exactly two teams with distinct roster ids, the Matchups
table has exactly one row per team for that `(week, matchup id)` key,
and each row's `opponent_id`/`opp_points` are the other row's own
`roster_id`/`points`. -/
theorem buildMatchupsDf_pair_symmetry (input : List (Nat × List RawMatchupRow)) (w : Nat)
    (pl : List RawMatchupRow) (m : Int) (a b : RawMatchupRow)
    (hkeys : (input.map Prod.fst).Nodup) (hin : (w, pl) ∈ input)
    (hfil : pl.filter (fun r => toInt8 (r.matchup_id.getD (-1)) = m) = [a, b])
    (hm : m ≠ -1) (hab : a.roster_id ≠ b.roster_id) :
    ((buildMatchupsDf input).filter (fun r => r.week = w ∧ r.matchup_id = m)).map
        (fun r => (r.roster_id, r.opponent_id, r.opp_points, r.points)) =
      [(a.roster_id, b.roster_id, b.points, a.points),
       (b.roster_id, a.roster_id, a.points, b.points)] := by
  have hamem : a ∈ pl.filter (fun r => toInt8 (r.matchup_id.getD (-1)) = m) := by
    rw [hfil]; exact List.mem_cons_self _ _
  have hbmem : b ∈ pl.filter (fun r => toInt8 (r.matchup_id.getD (-1)) = m) := by
    rw [hfil]; exact List.mem_cons_of_mem _ (List.mem_cons_self _ _)
  have ha_mid : toInt8 (a.matchup_id.getD (-1)) = m := by
    simpa using (List.mem_filter.mp hamem).2
  have hb_mid : toInt8 (b.matchup_id.getD (-1)) = m := by
    simpa using (List.mem_filter.mp hbmem).2
  have hS := scores_filter_pair input w pl m a b hkeys hin hfil
  have hM := merge_filter_pair (scoresOfInput input) w m (normWeek w a) (normWeek w b) hS
  unfold buildMatchupsDf
  rw [List.filter_map]
  have hcomm : ((mergeOpponents (scoresOfInput input)).filter
        (fun mr => mr.roster_id ≠ mr.opponent_id)).filter
        ((fun r => decide (r.week = w ∧ r.matchup_id = m)) ∘ assignResult) =
      ((mergeOpponents (scoresOfInput input)).filter
        (fun r => r.week = w ∧ r.matchup_id = m)).filter
        (fun mr => mr.roster_id ≠ mr.opponent_id) := by
    rw [List.filter_filter, List.filter_filter]
    apply List.filter_congr
    intro x _
    show (decide ((assignResult x).week = w ∧ (assignResult x).matchup_id = m) &&
        decide (x.roster_id ≠ x.opponent_id)) = _
    rw [Bool.and_comm]
    rfl
  rw [hcomm, hM]
  have hneAA : ¬ ((mkMergedRow (normWeek w a) (normWeek w a)).roster_id ≠
      (mkMergedRow (normWeek w a) (normWeek w a)).opponent_id) := by
    simp [mkMergedRow, normWeek]
  have hneBB : ¬ ((mkMergedRow (normWeek w b) (normWeek w b)).roster_id ≠
      (mkMergedRow (normWeek w b) (normWeek w b)).opponent_id) := by
    simp [mkMergedRow, normWeek]
  have hneAB : (mkMergedRow (normWeek w a) (normWeek w b)).roster_id ≠
      (mkMergedRow (normWeek w a) (normWeek w b)).opponent_id := by
    simpa [mkMergedRow, normWeek] using hab
  have hneBA : (mkMergedRow (normWeek w b) (normWeek w a)).roster_id ≠
      (mkMergedRow (normWeek w b) (normWeek w a)).opponent_id := by
    simpa [mkMergedRow, normWeek] using fun h => hab h.symm
  rw [List.filter_cons_of_neg (by simpa using hneAA),
    List.filter_cons_of_pos (by simpa using hneAB),
    List.filter_cons_of_pos (by simpa using hneBA),
    List.filter_cons_of_neg (by simpa using hneBB), List.filter_nil]
  have hnoA : (mkMergedRow (normWeek w a) (normWeek w b)).matchup_id ≠ -1 :=
    fun h => hm (ha_mid.symm.trans h)
  have hnoB : (mkMergedRow (normWeek w b) (normWeek w a)).matchup_id ≠ -1 :=
    fun h => hm (hb_mid.symm.trans h)
  simp only [List.map_cons, List.map_nil, assignResult]
  rw [if_neg hnoA, if_neg hnoA, if_neg hnoB, if_neg hnoB]
  rfl

/-- Witness for C2: one week, one matchup with two teams scoring 10 and
20. -/
theorem buildMatchupsDf_pair_symmetry_witness :
    ((buildMatchupsDf [(1, [{ roster_id := 1, matchup_id := some 1, points := 10 },
        { roster_id := 2, matchup_id := some 1, points := 20 }])]).filter
          (fun r => r.week = 1 ∧ r.matchup_id = 1)).map
        (fun r => (r.roster_id, r.opponent_id, r.opp_points, r.points)) =
      [((1 : Int), (2 : Int), (20 : ℚ), (10 : ℚ)),
       ((2 : Int), (1 : Int), (10 : ℚ), (20 : ℚ))] :=
  buildMatchupsDf_pair_symmetry
    [(1, [{ roster_id := 1, matchup_id := some 1, points := 10 },
      { roster_id := 2, matchup_id := some 1, points := 20 }])] 1
    [{ roster_id := 1, matchup_id := some 1, points := 10 },
     { roster_id := 2, matchup_id := some 1, points := 20 }] 1
    { roster_id := 1, matchup_id := some 1, points := 10 }
    { roster_id := 2, matchup_id := some 1, points := 20 }
    (by decide) (by decide) (by decide) (by decide) (by decide)

theorem getD_mem_of_lt {l : List String} {i : Nat} (h : i < l.length) (d : String) :
    l.getD i d ∈ l := by
  induction l generalizing i with
  | nil => simp at h
  | cons hd tl ih =>
    cases i with
    | zero => exact List.mem_cons_self _ _
    | succ n => exact List.mem_cons_of_mem _ (ih (by simpa using h))

theorem zip_tagged (owner : String) (l sp : List String) :
    (l.map (fun p => (owner, p))).zip sp =
      (l.zip sp).map (fun q => ((owner, q.1), q.2)) := by
  induction l generalizing sp with
  | nil => rfl
  | cons h t ih =>
    cases sp with
    | nil => rfl
    | cons s st => simp [ih]

theorem zip_filter_at_index {l sp : List String} (hnd : l.Nodup) {i : Nat}
    (hil : i < l.length) (hisp : i < sp.length) :
    (l.zip sp).filter (fun q => q.1 = l.getD i "") =
      [(l.getD i "", sp.getD i "")] := by
  induction l generalizing sp i with
  | nil => simp at hil
  | cons hd tl ih =>
    cases sp with
    | nil => simp at hisp
    | cons s st =>
      rw [List.nodup_cons] at hnd
      cases i with
      | zero =>
        rw [show (hd :: tl).getD 0 "" = hd from rfl, show (s :: st).getD 0 "" = s from rfl,
          List.zip_cons_cons, List.filter_cons_of_pos (by simp)]
        have hrest : (tl.zip st).filter (fun q => q.1 = hd) = [] := by
          rw [List.filter_eq_nil_iff]
          intro q hq hdec
          exact hnd.1 ((of_decide_eq_true hdec) ▸ (List.of_mem_zip hq).1)
        rw [hrest]
      | succ n =>
        rw [show (hd :: tl).getD (n + 1) "" = tl.getD n "" from rfl,
          show (s :: st).getD (n + 1) "" = st.getD n "" from rfl, List.zip_cons_cons,
          List.filter_cons_of_neg ?_]
        · exact ih hnd.2 (by simpa using hil) (by simpa using hisp)
        · simp only [decide_eq_true_eq]
          exact fun he => hnd.1 (he ▸ getD_mem_of_lt (by simpa using hil) "")

theorem filter_eq_singleton_of_nodup {l : List String} (h : l.Nodup) {x : String}
    (hx : x ∈ l) : l.filter (fun y => y = x) = [x] := by
  induction l with
  | nil => cases hx
  | cons hd tl ih =>
    rw [List.nodup_cons] at h
    rcases List.mem_cons.mp hx with he | hx'
    · rw [List.filter_cons_of_pos (by simp [he.symm])]
      have hrest : tl.filter (fun y => y = x) = [] := by
        rw [List.filter_eq_nil_iff]
        intro y hy hdec
        exact h.1 (((of_decide_eq_true hdec).trans he) ▸ hy)
      rw [hrest, he]
    · have hne : hd ≠ x := fun he => h.1 (he ▸ hx')
      rw [List.filter_cons_of_neg (by simpa using hne)]
      exact ih h.2 hx'

theorem filter_flatMap_unique {α β : Type} (l : List α) (key : α → String)
    (hkeys : (l.map key).Nodup) (x : α) (hx : x ∈ l) (f : α → List β) (p : β → Bool)
    (hz : ∀ y ∈ l, key y ≠ key x → (f y).filter p = []) :
    (l.flatMap f).filter p = (f x).filter p := by
  induction l with
  | nil => cases hx
  | cons hd tl ih =>
    rw [List.map_cons, List.nodup_cons] at hkeys
    rw [List.flatMap_cons, List.filter_append]
    rcases List.mem_cons.mp hx with he | hx'
    · subst he
      have h1 : (tl.flatMap f).filter p = [] := by
        rw [List.filter_flatMap]
        apply flatMap_nil_of_forall
        intro y hy
        exact hz y (List.mem_cons_of_mem _ hy)
          (fun hk => hkeys.1 (hk ▸ List.mem_map.mpr ⟨y, hy, rfl⟩))
      rw [h1, List.append_nil]
    · have hne : key hd ≠ key x :=
        fun he => hkeys.1 (he ▸ List.mem_map.mpr ⟨x, hx', rfl⟩)
      rw [hz hd (List.mem_cons_self _ _) hne, List.nil_append]
      exact ih hkeys.2 hx' (fun y hy => hz y (List.mem_cons_of_mem _ hy))

theorem zip_explode (sp : List String) (rosters : List RawRoster)
    (hlen : ∀ r ∈ rosters, r.starters.length = sp.length) :
    (rosters.flatMap (fun r => r.starters.map (fun p => (r.owner_id, p)))).zip
      ((List.replicate rosters.length sp).flatten) = taggedStarters sp rosters := by
  induction rosters with
  | nil => rfl
  | cons hd tl ih =>
    rw [List.flatMap_cons, List.length_cons, List.replicate_succ, List.flatten_cons]
    unfold taggedStarters
    rw [List.flatMap_cons,
      List.zip_append (by rw [List.length_map]; exact hlen hd (List.mem_cons_self _ _)),
      zip_tagged]
    congr 1
    exact ih (fun r hr => hlen r (List.mem_cons_of_mem _ hr))

theorem starterLabels_eq_tagged (sp : List String) (rosters : List RawRoster)
    (hkeys : (rosters.map RawRoster.owner_id).Nodup)
    (hlen : ∀ r ∈ rosters, r.starters.length = sp.length) :
    starterLabels sp rosters = some (taggedStarters sp rosters) := by
  unfold starterLabels
  dsimp only
  have hn : nuniqueOwners rosters = rosters.length := by
    unfold nuniqueOwners
    rw [hkeys.dedup, List.length_map]
  have hexp : (rosters.flatMap (fun r => r.starters.map (fun p => (r.owner_id, p)))).length =
      rosters.length * sp.length := by
    rw [List.length_flatMap]
    rw [List.map_congr_left (g := fun _ => sp.length)
      (fun r hr => by rw [Function.comp_apply, List.length_map]; exact hlen r hr)]
    rw [show rosters.map (fun _ => sp.length) = List.replicate rosters.length sp.length by
      rw [List.map_const']]
    rw [List.sum_replicate, smul_eq_mul]
  have hlab : ((List.replicate (nuniqueOwners rosters) sp).flatten).length =
      rosters.length * sp.length := by
    rw [List.length_flatten, hn, List.map_replicate, List.sum_replicate, smul_eq_mul]
  rw [if_pos (hexp.trans hlab.symm), hn, zip_explode sp rosters hlen]

theorem taggedStarters_filter (sp : List String) (rosters : List RawRoster)
    (hkeys : (rosters.map RawRoster.owner_id).Nodup) {r : RawRoster} (hr : r ∈ rosters)
    (p : String) :
    (taggedStarters sp rosters).filter (fun e => e.1.1 = r.owner_id ∧ e.1.2 = p) =
      ((r.starters.zip sp).filter (fun q => q.1 = p)).map
        (fun q => ((r.owner_id, q.1), q.2)) := by
  unfold taggedStarters
  refine (filter_flatMap_unique rosters RawRoster.owner_id hkeys r hr
      (fun r' => (r'.starters.zip sp).map (fun q => ((r'.owner_id, q.1), q.2)))
      (fun e => decide (e.1.1 = r.owner_id ∧ e.1.2 = p)) ?_).trans ?_
  · intro y _ hne
    rw [List.filter_eq_nil_iff]
    intro e he hdec
    rw [List.mem_map] at he
    obtain ⟨q, _, hq⟩ := he
    subst hq
    exact hne (of_decide_eq_true hdec).1
  · rw [List.filter_map]
    congr 1
    apply List.filter_congr
    intro q _
    simp

theorem playerRows_fields {dfS : List ((String × String) × String)} {r : RawRoster}
    {p : String} {row : RosterRow} (hrow : row ∈ playerRows dfS r p) :
    row.owner_id = r.owner_id ∧ row.player_id = p := by
  simp only [playerRows] at hrow
  split at hrow
  · rw [List.mem_singleton] at hrow
    subst hrow
    exact ⟨rfl, rfl⟩
  · rw [List.mem_map] at hrow
    obtain ⟨e, _, he⟩ := hrow
    subst he
    exact ⟨rfl, rfl⟩

theorem playerRows_filter_self (dfS : List ((String × String) × String)) (r : RawRoster)
    (p : String) (key : RosterRow → Bool)
    (hkey : ∀ row ∈ playerRows dfS r p, key row = true) :
    (playerRows dfS r p).filter key = playerRows dfS r p :=
  List.filter_eq_self.mpr hkey

theorem playerRows_NA {dfS : List ((String × String) × String)} {r : RawRoster}
    {p : String} {row : RosterRow} (hrow : row ∈ playerRows dfS r p)
    (hh : dfS.filter (fun e => e.1.1 = r.owner_id ∧ e.1.2 = p) = []) :
    row.starting_pos = "NA" := by
  simp only [playerRows, hh, if_pos] at hrow
  rw [List.mem_singleton] at hrow
  subst hrow
  rfl

/-- C5: under the well-formedness the merge relies on (distinct owners,
each team's starters list as long as the league slot list, duplicate-free
starter and player lists), the Rosters table exists and assigns a
rostered player found at index `i` of its team's starters list exactly
one starting-slot label — the slot at the same index `i` of the league's
starting-slot sequence — while every rostered player not in its team's
starters list gets the sentinel `"NA"`. -/
theorem buildRostersDf_slots (sp : List String) (rosters : List RawRoster)
    (hkeys : (rosters.map RawRoster.owner_id).Nodup)
    (hlen : ∀ r ∈ rosters, r.starters.length = sp.length)
    (hsnd : ∀ r ∈ rosters, r.starters.Nodup)
    (hpnd : ∀ r ∈ rosters, r.players.Nodup) :
    ∃ out, buildRostersDf sp rosters = some out ∧
      (∀ r ∈ rosters, ∀ i < r.starters.length, r.starters.getD i "" ∈ r.players →
        (out.filter (fun row => row.owner_id = r.owner_id ∧
            row.player_id = r.starters.getD i "")).map RosterRow.starting_pos =
          [sp.getD i ""]) ∧
      (∀ row ∈ out, ∀ r ∈ rosters, row.owner_id = r.owner_id →
        row.player_id ∉ r.starters → row.starting_pos = "NA") := by
  refine ⟨rosters.flatMap
      (fun r => r.players.flatMap (playerRows (taggedStarters sp rosters) r)), ?_, ?_, ?_⟩
  · unfold buildRostersDf
    rw [starterLabels_eq_tagged sp rosters hkeys hlen]
    rfl
  · intro r hr i hi hp
    have hhits : (taggedStarters sp rosters).filter
        (fun e => e.1.1 = r.owner_id ∧ e.1.2 = r.starters.getD i "") =
        [((r.owner_id, r.starters.getD i ""), sp.getD i "")] := by
      rw [taggedStarters_filter sp rosters hkeys hr,
        zip_filter_at_index (hsnd r hr) hi (hlen r hr ▸ hi), List.map_cons, List.map_nil]
    have h1 : ((rosters.flatMap
        (fun r' => r'.players.flatMap (playerRows (taggedStarters sp rosters) r'))).filter
          (fun row => row.owner_id = r.owner_id ∧
            row.player_id = r.starters.getD i "")) =
        ((r.players.flatMap (playerRows (taggedStarters sp rosters) r)).filter
          (fun row => row.owner_id = r.owner_id ∧
            row.player_id = r.starters.getD i "")) :=
      filter_flatMap_unique rosters RawRoster.owner_id hkeys r hr _ _
        (by
          intro y _ hne
          rw [List.filter_eq_nil_iff]
          intro row hrow hdec
          rw [List.mem_flatMap] at hrow
          obtain ⟨p', _, hrow'⟩ := hrow
          exact hne ((playerRows_fields hrow').1.symm.trans (of_decide_eq_true hdec).1))
    rw [h1, List.filter_flatMap]
    have h2 : ∀ p' ∈ r.players,
        ((playerRows (taggedStarters sp rosters) r p').filter
          (fun row => row.owner_id = r.owner_id ∧
            row.player_id = r.starters.getD i "")) =
        if (fun y => decide (y = r.starters.getD i "")) p' then
          playerRows (taggedStarters sp rosters) r p' else [] := by
      intro p' _
      by_cases hpq : p' = r.starters.getD i ""
      · rw [if_pos (by simpa using hpq), playerRows_filter_self]
        intro row hrow
        have hf := playerRows_fields hrow
        simp [hf.1, hf.2, hpq]
      · rw [if_neg (by simpa using hpq), List.filter_eq_nil_iff]
        intro row hrow hdec
        exact hpq (((playerRows_fields hrow).2.symm).trans (of_decide_eq_true hdec).2)
    rw [flatMap_congr_mem h2, flatMap_ite_filter,
      filter_eq_singleton_of_nodup (hpnd r hr) hp, List.flatMap_cons, List.flatMap_nil,
      List.append_nil]
    simp only [playerRows, hhits]
    rw [if_neg (by simp), List.map_cons, List.map_nil, List.map_cons, List.map_nil]
  · intro row hrow r hr howner hnot
    rw [List.mem_flatMap] at hrow
    obtain ⟨r', hr', hrow2⟩ := hrow
    rw [List.mem_flatMap] at hrow2
    obtain ⟨p', hp', hrow3⟩ := hrow2
    have hfields := playerRows_fields hrow3
    have heqr : r' = r :=
      List.inj_on_of_nodup_map hkeys hr' hr (hfields.1.symm.trans howner)
    subst heqr
    refine playerRows_NA hrow3 ?_
    rw [taggedStarters_filter sp rosters hkeys hr', List.map_eq_nil_iff,
      List.filter_eq_nil_iff]
    intro q hq hdec
    have hq1 : q.1 ∈ r'.starters := (List.of_mem_zip hq).1
    have : row.player_id ∈ r'.starters := by
      rw [hfields.2]
      exact (of_decide_eq_true hdec) ▸ hq1
    exact hnot this

/-- Witness for C5: one team whose starters `["p2", "p1"]` pair with
slots `["QB", "RB"]`; the player at starter index 0 gets exactly the
label `"QB"`. -/
theorem buildRostersDf_slots_witness :
    ∃ out, buildRostersDf ["QB", "RB"]
        [{ owner_id := "100", roster_id := 1, players := ["p1", "p2", "p3"],
           starters := ["p2", "p1"], taxi := [], reserve := [] }] = some out ∧
      (out.filter (fun row => row.owner_id = "100" ∧ row.player_id = "p2")).map
        RosterRow.starting_pos = ["QB"] := by
  obtain ⟨out, h1, h2, _⟩ := buildRostersDf_slots ["QB", "RB"]
    [{ owner_id := "100", roster_id := 1, players := ["p1", "p2", "p3"],
       starters := ["p2", "p1"], taxi := [], reserve := [] }]
    (by decide) (by decide) (by decide) (by decide)
  exact ⟨out, h1, h2 _ (List.mem_cons_self _ _) 0 (by decide) (by decide)⟩

end SleeperFF
